import Mathlib

/-!
Verification of the `granular-selectors` ESLint rule
(src/lib/rules/granular-selectors.js, second revision, lines 332-883).

The rule inspects variable declarations that destructure fields out of a
state-selector call (`const \x7b a, b \x7d = useSelector(state => ...)`), or that
read a property off a variable bound to such a call, and proposes replacement
declarations that each call the selector for a single field.

This file gives a shallow embedding of the rule: the relevant fragment of the
ESLint AST is modelled as inductive types, source text of a node is recovered
by a printer (`exprText`, `fnText`), and each helper of the rule is translated
function by function (`extractBasePath`, `isSelectorFunction`,
`detectCodeStyle`, `processObjectPattern`, the two visitor handlers and the
per-file dedup registry).  The two JS regular expressions used by the rule
(`/use.*Selector.*/` and `/^\([^)]*\)\s*=>/`) and the anchored
`replace(new RegExp("^" + paramName + "\\."), "")` are hand-compiled to
executable character-list functions.
-/

/-- Prefix test on character lists (the semantics of `String.startsWith`). -/
def listIsPre : List Char → List Char → Bool
  | [], _ => true
  | _ :: _, [] => false
  | a :: as, b :: bs => a == b && listIsPre as bs

/-- Does `hay` contain `needle` as a contiguous substring? -/
def listHasSub (needle : List Char) : List Char → Bool
  | [] => listIsPre needle []
  | c :: rest => listIsPre needle (c :: rest) || listHasSub needle rest

/-- Helper for `matchesUseSelector`: scan every suffix for `use`, then look
for `Selector` anywhere after it. -/
def useSelAux : List Char → Bool
  | [] => false
  | c :: rest =>
      (listIsPre "use".data (c :: rest) && listHasSub "Selector".data ((c :: rest).drop 3))
      || useSelAux rest

/-- The test `/use.*Selector.*/.test(name)` from `isSelectorFunction`
(granular-selectors.js line 639): the name contains `use` followed,
anywhere later, by `Selector`. -/
def matchesUseSelector (s : String) : Bool := useSelAux s.data

/-- JS `\s` on the characters that can occur here. -/
def isWsChar (c : Char) : Bool := c == ' ' || c == '\t' || c == '\n' || c == '\r'

/-- The test `/^\([^)]*\)\s*=>/.test(funcText)` from
`hasParenthesesAroundParams` (line 538): an opening parenthesis, characters
up to the first closing parenthesis, optional whitespace, then `=>`. -/
def regexParenArrow (s : String) : Bool :=
  match s.data with
  | '(' :: rest =>
    match rest.dropWhile (fun c => !(c == ')')) with
    | ')' :: tail => listIsPre "=>".data (tail.dropWhile isWsChar)
    | _ => false
  | _ => false

/-- `text.replace(new RegExp("^" + paramName + "\\."), "")` (lines 553, 563,
578, 590, 604, 621): strip a leading `paramName.` if present, otherwise
return the text unchanged. -/
def stripParamHead (p t : String) : String :=
  if listIsPre (p ++ ".").data t.data then String.mk (t.data.drop (p.data.length + 1)) else t

/-- The fragment of the ESLint expression AST the rule inspects.  Node kinds
the rule never looks inside (`ObjectExpression`, `ConditionalExpression`,
anything else) only carry their source text. -/
inductive JsExpr where
  | ident (name : String)
  | member (obj : JsExpr) (prop : String)
  | logical (op : String) (l r : JsExpr)
  | binary (op : String) (l r : JsExpr)
  | condE (text : String)
  | objectLit (text : String)
  | raw (text : String)
  deriving DecidableEq, Repr

/-- Source text of an expression (the `sourceCode.getText(node)` service,
assuming canonically spaced source). -/
def exprText : JsExpr → String
  | .ident n => n
  | .member o p => exprText o ++ "." ++ p
  | .logical op l r => exprText l ++ " " ++ op ++ " " ++ exprText r
  | .binary op l r => exprText l ++ " " ++ op ++ " " ++ exprText r
  | .condE t => t
  | .objectLit t => t
  | .raw t => t

/-- `node.type === "MemberExpression"`. -/
def isMemberB : JsExpr → Bool
  | .member _ _ => true
  | _ => false

/-- Statements of a function block body; the rule only distinguishes
`ReturnStatement` from everything else (lines 572-574, 598-600). -/
inductive Stmt where
  | ret (arg : Option JsExpr)
  | sother
  deriving DecidableEq, Repr

def stmtIsRet : Stmt → Bool
  | .ret _ => true
  | .sother => false

def stmtText : Stmt → String
  | .ret (some e) => "return " ++ exprText e ++ ";"
  | .ret none => "return;"
  | .sother => ";"

def stmtsText : List Stmt → String
  | [] => ""
  | [s] => stmtText s
  | s :: rest => stmtText s ++ " " ++ stmtsText rest

inductive FnBody where
  | expr (e : JsExpr)
  | block (stmts : List Stmt)
  deriving DecidableEq, Repr

inductive FnKind where
  | arrow
  | funcExpr
  deriving DecidableEq, Repr

/-- A function parameter: its name and, when the parser exposes one, the
source text of its type annotation (`": RootState"`); `""` means none. -/
structure FnParam where
  name : String
  typeAnn : String
  deriving DecidableEq, Repr

/-- The first argument of a recognized selector call: an
`ArrowFunctionExpression` or `FunctionExpression`.  `srcParens` records
whether the source wrote parentheses around an arrow parameter list. -/
structure SelectorFn where
  kind : FnKind
  params : List FnParam
  srcParens : Bool
  body : FnBody
  deriving DecidableEq, Repr

def paramsSrc : List FnParam → String
  | [] => ""
  | [p] => p.name ++ p.typeAnn
  | p :: rest => p.name ++ p.typeAnn ++ ", " ++ paramsSrc rest

def fnBodyText : FnBody → String
  | .expr e => exprText e
  | .block stmts => "\x7b " ++ stmtsText stmts ++ " \x7d"

/-- Source text of the selector function (`sourceCode.getText(funcNode)`). -/
def fnText (fn : SelectorFn) : String :=
  match fn.kind with
  | .arrow =>
      (if fn.srcParens then "(" ++ paramsSrc fn.params ++ ")" else paramsSrc fn.params)
        ++ " => " ++ fnBodyText fn.body
  | .funcExpr => "function(" ++ paramsSrc fn.params ++ ") " ++ fnBodyText fn.body

/-- `getParamName` (lines 496-501): `funcNode.params[0].name`, `null` when
there is no parameter. -/
def getParamName (fn : SelectorFn) : Option String :=
  match fn.params with
  | [] => none
  | p :: _ => some p.name

/-- `getParamTypeAnnotation` (lines 504-525): the annotation text attached to
the first parameter, `""` when absent (the regex fallback on an
annotation-free parameter text also yields `""`). -/
def getParamTypeAnn (fn : SelectorFn) : String :=
  match fn.params with
  | [] => ""
  | p :: _ => p.typeAnn

/-- `hasParenthesesAroundParams` (lines 528-539): no parameters gives
`false`, otherwise the paren-arrow regex is run on the function text. -/
def hasParenthesesAroundParams (fn : SelectorFn) : Bool :=
  match fn.params with
  | [] => false
  | _ :: _ => regexParenArrow (fnText fn)

/-- `body.body.find(stmt => stmt.type === "ReturnStatement")`. -/
def findRet (stmts : List Stmt) : Option Stmt :=
  stmts.find? stmtIsRet

/-- Left operand check shared by the `LogicalExpression | BinaryExpression |
ConditionalExpression` branches of `extractBasePath` (lines 579-592,
608-626): `argument.left` exists and is a `MemberExpression`; a
`ConditionalExpression` has no `left`, so it falls through to `""`. -/
def retArgBase (paramName : String) : JsExpr → String
  | .member o p => stripParamHead paramName (exprText (.member o p))
  | .logical _ l _ => if isMemberB l then stripParamHead paramName (exprText l) else ""
  | .binary _ l _ => if isMemberB l then stripParamHead paramName (exprText l) else ""
  | _ => ""

/-- `extractBasePath` (lines 542-631), branch by branch. -/
def extractBasePath (fn : SelectorFn) (paramName : String) : String :=
  match fn.kind, fn.body with
  | .arrow, .expr e =>
    match e with
    | .member o p => stripParamHead paramName (exprText (.member o p))
    | .logical _ l _ => if isMemberB l then stripParamHead paramName (exprText l) else ""
    | _ => ""
  | .arrow, .block stmts =>
    match findRet stmts with
    | some (.ret (some arg)) => retArgBase paramName arg
    | _ => ""
  | .funcExpr, .block stmts =>
    match findRet stmts with
    | some (.ret (some arg)) => retArgBase paramName arg
    | _ => ""
  | .funcExpr, .expr _ => ""

/-- An argument of a call expression: a function value or anything else. -/
inductive CallArg where
  | fn (f : SelectorFn)
  | otherArg
  deriving DecidableEq, Repr

/-- A `CallExpression`: `calleeIdent` is the callee name when the callee is
a bare `Identifier`, `none` otherwise. -/
structure CallE where
  calleeIdent : Option String
  args : List CallArg
  deriving DecidableEq, Repr

/-- `isSelectorFunction` (lines 634-654): identifier callee matching
`/use.*Selector.*/`, at least one argument, first argument an arrow or
function expression. -/
def isSelectorFunction (c : CallE) : Bool :=
  match c.calleeIdent with
  | none => false
  | some name =>
    matchesUseSelector name &&
      (match c.args with
       | [] => false
       | .fn _ :: _ => true
       | .otherArg :: _ => false)

def calleeName (c : CallE) : String := c.calleeIdent.getD ""

/-- The value of a plain (non-nested) destructuring property (lines
374-393): an `Identifier` (shorthand or alias), an `AssignmentPattern`
(whose `left` may or may not be an `Identifier`; `rightText` is the source
text of the default expression), or anything else. -/
inductive LeafVal where
  | idVal (name : String)
  | assignVal (left : Option String) (rightText : String)
  | otherVal
  deriving DecidableEq, Repr

/-- The `properties` array of an `ObjectPattern`, one cell per entry:
`pskip` is an entry whose `type` is not `"Property"` (e.g. a
`RestElement`), `pleaf` a `Property` with a non-pattern value, `pnest` a
`Property` whose value is itself an `ObjectPattern`.  `key` is the
computed `keyName` (line 361-363). -/
inductive PatNode where
  | pnil
  | pskip (rest : PatNode)
  | pleaf (key : String) (v : LeafVal) (rest : PatNode)
  | pnest (key : String) (inner : PatNode) (rest : PatNode)
  deriving DecidableEq, Repr

/-- The alias / default-value computation of lines 374-393: an `Identifier`
value names the alias; an `AssignmentPattern` with an `Identifier` left
names the alias and carries the default text; when no alias was determined
(JS falsy check, which also catches an empty name) the key is used. -/
def aliasDefault (key : String) : LeafVal → String × String
  | .idVal n => (if n = "" then key else n, "")
  | .assignVal (some l) rtext => (if l = "" then key else l, rtext)
  | .assignVal none _ => (key, "")
  | .otherVal => (key, "")

/-- The `selectorInfo` record built at lines 710-717 and consumed by
`processObjectPattern`. -/
structure SelectorInfo where
  selectorName : String
  paramName : String
  paramTypeAnn : String
  hasParens : Bool
  basePath : String
  useES6 : Bool
  deriving DecidableEq, Repr

/-- The replacement-declaration text built at lines 399-472 for one leaf:
ES6 arrow form or ES5 function form, parenthesizing the annotated
parameter only when `hasParens`, and appending ` || default` when the leaf
carried a default value. -/
def renderFix (info : SelectorInfo) (aliasName fullPath defaultValue : String) : String :=
  if info.useES6 then
    let paramWithType :=
      if info.paramTypeAnn = "" then info.paramName
      else if info.hasParens then "(" ++ info.paramName ++ info.paramTypeAnn ++ ")"
      else info.paramName ++ info.paramTypeAnn
    if defaultValue = "" then
      "const " ++ aliasName ++ " = " ++ info.selectorName ++ "(" ++ paramWithType ++ " => "
        ++ info.paramName ++ "." ++ fullPath ++ ");"
    else
      "const " ++ aliasName ++ " = " ++ info.selectorName ++ "(" ++ paramWithType ++ " => "
        ++ info.paramName ++ "." ++ fullPath ++ ") || " ++ defaultValue ++ ";"
  else
    if defaultValue = "" then
      "var " ++ aliasName ++ " = " ++ info.selectorName ++ "(function(" ++ info.paramName
        ++ ") \x7b return " ++ info.paramName ++ "." ++ fullPath ++ "; \x7d);"
    else
      "var " ++ aliasName ++ " = " ++ info.selectorName ++ "(function(" ++ info.paramName
        ++ ") \x7b return " ++ info.paramName ++ "." ++ fullPath ++ "; \x7d) || "
        ++ defaultValue ++ ";"

/-- `processObjectPattern` (lines 348-483): walk the property list,
recursing into nested `ObjectPattern` values with the extended path,
emitting one replacement declaration per plain `Property` leaf, skipping
non-`Property` entries. -/
def processObjectPattern (info : SelectorInfo) (parentPath : String) : PatNode → List String
  | .pnil => []
  | .pskip rest => processObjectPattern info parentPath rest
  | .pleaf key v rest =>
      let currentPath := if parentPath = "" then key else parentPath ++ "." ++ key
      let ad := aliasDefault key v
      let fullPath := if info.basePath = "" then currentPath
        else info.basePath ++ "." ++ currentPath
      renderFix info ad.1 fullPath ad.2 :: processObjectPattern info parentPath rest
  | .pnest key inner rest =>
      let currentPath := if parentPath = "" then key else parentPath ++ "." ++ key
      processObjectPattern info currentPath inner ++ processObjectPattern info parentPath rest

/-- The `id` of a `VariableDeclarator`: an `ObjectPattern` or a plain
`Identifier` (the two shapes the rule distinguishes). -/
inductive DeclId where
  | objectPattern (props : PatNode)
  | identifier (name : String)
  deriving DecidableEq, Repr

/-- The `init` of a `VariableDeclarator`: a call expression, a member
expression (with the object / property names when those nodes are
identifiers), or anything else. -/
inductive DeclInit where
  | callE (c : CallE)
  | memberE (objName : Option String) (propName : Option String)
  | otherInit
  deriving DecidableEq, Repr

/-- A `VariableDeclarator` together with its parent declaration keyword. -/
structure Declarator where
  id : DeclId
  init : Option DeclInit
  parentKind : String
  deriving DecidableEq, Repr

/-- `detectCodeStyle` (lines 657-669): `const` parent, or a call `init`
whose first argument is an arrow function. -/
def detectCodeStyle (d : Declarator) : Bool :=
  d.parentKind = "const" ||
    (match d.init with
     | some (.callE c) =>
       (match c.args with
        | .fn f :: _ => f.kind = FnKind.arrow
        | _ => false)
     | _ => false)

def reportMessage : String :=
  "Avoid destructuring from selectors. Use granular selectors that return specific values."

/-- One diagnostic: the fixed message and the replacement declarations the
fixer would apply (first replaces the statement, the rest are inserted
after it). -/
structure Report where
  message : String
  fixes : List String
  deriving DecidableEq, Repr

/-- The `VariableDeclarator[id.type="ObjectPattern"]` handler (lines
676-745): on a destructuring declarator whose `init` is a recognized
selector call with a named parameter, build `selectorInfo` and report with
the fixes from `processObjectPattern` — even when that list is empty. -/
def destructuringHandler (d : Declarator) : Option Report :=
  match d.id, d.init with
  | .objectPattern props, some (.callE c) =>
    if isSelectorFunction c then
      match c.args with
      | .fn selectorFn :: _ =>
        match getParamName selectorFn with
        | some paramName =>
          if paramName = "" then none
          else
            let info : SelectorInfo :=
              { selectorName := calleeName c
                paramName := paramName
                paramTypeAnn := getParamTypeAnn selectorFn
                hasParens := hasParenthesesAroundParams selectorFn
                basePath := extractBasePath selectorFn paramName
                useES6 := detectCodeStyle d }
            some { message := reportMessage, fixes := processObjectPattern info "" props }
        | none => none
      | _ => none
    else none
  | _, _ => none

/-- The replacement built by the access-chain handler (lines 811-860). -/
def renderAccessFix (useES6 : Bool) (parentKind idName selectorName paramName
    paramTypeAnn : String) (hasParens : Bool) (fullPath : String) : String :=
  if useES6 then
    let paramWithType :=
      if paramTypeAnn = "" then paramName
      else if hasParens then "(" ++ paramName ++ paramTypeAnn ++ ")"
      else paramName ++ paramTypeAnn
    (if parentKind = "" then "const" else parentKind) ++ " " ++ idName ++ " = "
      ++ selectorName ++ "(" ++ paramWithType ++ " => " ++ paramName ++ "." ++ fullPath ++ ");"
  else
    "var " ++ idName ++ " = " ++ selectorName ++ "(function(" ++ paramName
      ++ ") \x7b return " ++ paramName ++ "." ++ fullPath ++ "; \x7d);"

/-- The plain `VariableDeclarator` handler (lines 748-875) as a step of the
per-file state machine.  `env` abstracts the lexical-scope walk of lines
763-781 (the innermost variable with the given name, with `defs[0].node`).
`reported` is the dedup registry `reportedVariables`; the returned list is
its new value.  The handler skips object patterns, requires a member
expression `init` with identifier object and property, consults the
registry before anything else, resolves the object variable, requires its
`init` to be a recognized selector call with a named parameter, then marks
the key and reports a single replacement declaration. -/
def accessStep (env : String → Option Declarator) (reported : List String)
    (d : Declarator) : Option Report × List String :=
  match d.id with
  | .objectPattern _ => (none, reported)
  | .identifier idName =>
    match d.init with
    | some (.memberE (some objName) (some propName)) =>
      if objName = "" ∨ propName = "" then (none, reported)
      else
        let key := objName ++ "." ++ propName
        if key ∈ reported then (none, reported)
        else
          match env objName with
          | none => (none, reported)
          | some defNode =>
            match defNode.init with
            | some (.callE c) =>
              if isSelectorFunction c then
                match c.args with
                | .fn selectorFn :: _ =>
                  match getParamName selectorFn with
                  | some paramName =>
                    if paramName = "" then (none, reported)
                    else
                      let basePath := extractBasePath selectorFn paramName
                      let useES6 := detectCodeStyle defNode || d.parentKind = "const"
                      let fullPath := if basePath = "" then propName
                        else basePath ++ "." ++ propName
                      let fix := renderAccessFix useES6 d.parentKind idName (calleeName c)
                        paramName (getParamTypeAnn selectorFn)
                        (hasParenthesesAroundParams selectorFn) fullPath
                      (some { message := reportMessage, fixes := [fix] }, key :: reported)
                  | none => (none, reported)
                | _ => (none, reported)
              else (none, reported)
            | _ => (none, reported)
    | _ => (none, reported)

/-- Run the access-chain handler over the declarators of one file,
threading the dedup registry. -/
def processDecls (env : String → Option Declarator) :
    List String → List Declarator → List (Option Report) × List String
  | r, [] => ([], r)
  | r, d :: ds =>
      let step := accessStep env r d
      let rest := processDecls env step.2 ds
      (step.1 :: rest.1, rest.2)

/-- Processing a file: the `Program` handler (lines 878-880) resets the
registry to empty before the declarators are visited, whatever state a
previous file left behind. -/
def processFile (env : String → Option Declarator) (_prev : List String)
    (decls : List Declarator) : List (Option Report) × List String :=
  processDecls env [] decls

/-- Dot-joined key sequence, the specification-side reading of the path a
destructuring walk accumulates. -/
def dotJoin : List String → String
  | [] => ""
  | k :: ks => match ks with
    | [] => k
    | _ :: _ => k ++ "." ++ dotJoin ks

/-- Prefixing with the selector base path exactly as line 395-397 does:
only when the base path is nonempty, with a joining dot. -/
def joinWithBase (basePath p : String) : String :=
  if basePath = "" then p else basePath ++ "." ++ p

/-- Specification-side leaf enumeration of a destructuring pattern: for each
plain `Property` leaf, the key sequence from the root, the alias and the
default-value text. -/
def patLeaves (anc : List String) : PatNode → List (List String × String × String)
  | .pnil => []
  | .pskip rest => patLeaves anc rest
  | .pleaf k v rest => (anc ++ [k], aliasDefault k v) :: patLeaves anc rest
  | .pnest k inner rest => patLeaves (anc ++ [k]) inner ++ patLeaves anc rest

/-- Every key of the pattern is a nonempty string (always true for patterns
arising from real source, where keys are identifiers or literals). -/
def keysOk : PatNode → Bool
  | .pnil => true
  | .pskip rest => keysOk rest
  | .pleaf k _ rest => (!(k == "")) && keysOk rest
  | .pnest k inner rest => (!(k == "")) && keysOk inner && keysOk rest

/-- Number of plain `Property` leaves of a pattern. -/
def leafCount : PatNode → Nat
  | .pnil => 0
  | .pskip rest => leafCount rest
  | .pleaf _ _ rest => 1 + leafCount rest
  | .pnest _ inner rest => leafCount inner + leafCount rest

/-- Suffix test on strings, via reversed character lists. -/
def strEndsWith (s suff : String) : Bool := listIsPre suff.data.reverse s.data.reverse

theorem strAppend_assoc (a b c : String) : a ++ b ++ c = a ++ (b ++ c) := by
  apply String.ext
  simp [String.data_append, List.append_assoc]

theorem str_ne_empty_of_data (s : String) (h : s.data ≠ []) : s ≠ "" := by
  intro he
  apply h
  rw [he]

theorem dotJoin_ne_empty (k : String) (ks : List String) (hk : k ≠ "") :
    dotJoin (k :: ks) ≠ "" := by
  cases ks with
  | nil => simpa [dotJoin] using hk
  | cons a rest =>
    show (k ++ "." ++ dotJoin (a :: rest)) ≠ ""
    apply str_ne_empty_of_data
    rw [String.data_append, String.data_append]
    simp

theorem dotJoin_append_last (ks : List String) (k : String) (h : ks ≠ []) :
    dotJoin (ks ++ [k]) = dotJoin ks ++ "." ++ k := by
  induction ks with
  | nil => cases h rfl
  | cons a rest ih =>
    cases rest with
    | nil => simp [dotJoin]
    | cons b rs =>
      have h1 : dotJoin ((a :: b :: rs) ++ [k]) = a ++ "." ++ dotJoin ((b :: rs) ++ [k]) := rfl
      have h2 : dotJoin (a :: b :: rs) = a ++ "." ++ dotJoin (b :: rs) := rfl
      rw [h1, ih (by simp), h2]
      simp [strAppend_assoc]

/-- The `currentPath` computation of line 364 agrees with appending the key
to the ancestor key sequence, as long as ancestor keys are nonempty. -/
theorem dotJoin_snoc_cur (anc : List String) (k : String) (hanc : ∀ x ∈ anc, x ≠ "") :
    (if dotJoin anc = "" then k else dotJoin anc ++ "." ++ k) = dotJoin (anc ++ [k]) := by
  cases anc with
  | nil => simp [dotJoin]
  | cons a rest =>
    rw [if_neg (dotJoin_ne_empty a rest (hanc a (by simp)))]
    rw [dotJoin_append_last _ _ (by simp)]

/-- Generalized path-join invariant of `processObjectPattern`: started at
the path accumulated for the (nonempty-keyed) ancestors, it emits exactly
one rendered declaration per leaf, whose path is the base-path-prefixed
dot-join of the keys from the root to that leaf. -/
theorem processObjectPattern_leaves (info : SelectorInfo) (pat : PatNode) (anc : List String)
    (hanc : ∀ x ∈ anc, x ≠ "") (hpat : keysOk pat = true) :
    processObjectPattern info (dotJoin anc) pat =
      (patLeaves anc pat).map
        (fun t => renderFix info t.2.1 (joinWithBase info.basePath (dotJoin t.1)) t.2.2) := by
  induction pat generalizing anc with
  | pnil => rfl
  | pskip rest ih =>
    exact ih anc hanc hpat
  | pleaf k v rest ih =>
    simp only [keysOk, Bool.and_eq_true, bne_iff_ne] at hpat
    simp only [processObjectPattern, patLeaves, List.map_cons]
    rw [dotJoin_snoc_cur anc k hanc]
    rw [ih anc hanc hpat.2]
    rfl
  | pnest k inner rest ih1 ih2 =>
    simp only [keysOk, Bool.and_eq_true, bne_iff_ne] at hpat
    simp only [processObjectPattern, patLeaves, List.map_append]
    rw [dotJoin_snoc_cur anc k hanc]
    rw [ih1 (anc ++ [k]) ?hk hpat.1.2, ih2 anc hanc hpat.2]
    intro x hx
    rcases List.mem_append.mp hx with h | h
    · exact hanc x h
    · simp at h
      subst h
      simpa using hpat.1.1

/-- `processObjectPattern` emits exactly one declaration per plain
`Property` leaf, whatever the selector info and the starting path. -/
theorem processObjectPattern_length (info : SelectorInfo) (pat : PatNode) (pp : String) :
    (processObjectPattern info pp pat).length = leafCount pat := by
  induction pat generalizing pp with
  | pnil => rfl
  | pskip rest ih => exact ih pp
  | pleaf k v rest ih => simp [processObjectPattern, leafCount, ih pp, Nat.add_comm]
  | pnest k inner rest ih1 ih2 =>
    simp [processObjectPattern, leafCount, ih1, ih2]

/-- One step of the access-chain handler either leaves the dedup registry
unchanged or pushes a single new key onto it. -/
theorem accessStep_state (env : String → Option Declarator) (r : List String) (d : Declarator) :
    (accessStep env r d).2 = r ∨ ∃ k, (accessStep env r d).2 = k :: r := by
  unfold accessStep
  rcases d with ⟨id, init, kind⟩
  dsimp only
  repeat' first
    | exact Or.inl rfl
    | exact Or.inr ⟨_, rfl⟩
    | split

/-- The text of a member expression is never empty (it contains a dot). -/
theorem memberText_ne_empty (o : JsExpr) (p : String) : exprText (JsExpr.member o p) ≠ "" := by
  show exprText o ++ "." ++ p ≠ ""
  apply str_ne_empty_of_data
  rw [String.data_append, String.data_append]
  simp

/-- The selector `state => state.data || \x7b\x7d` of the fallback test case. -/
def fallbackSelFn : SelectorFn :=
  ⟨.arrow, [⟨"state", ""⟩], false,
    .expr (.logical "||" (.member (.ident "state") "data") (.raw "\x7b\x7d"))⟩

/-- `const \x7b items \x7d = useSelector(state => state.data || \x7b\x7d)`. -/
def fallbackDecl : Declarator :=
  ⟨.objectPattern (.pleaf "items" (.idVal "items") .pnil),
    some (.callE ⟨some "useSelector", [.fn fallbackSelFn]⟩), "const"⟩

/-- Claim C1 (refuted, code bug): for the fallback input the rule was claimed
to emit `const items = useSelector(state => state.data.items || \x7b\x7d);`; the
code instead drops the `|| \x7b\x7d` fallback entirely: `extractBasePath` keeps
only the left side of the logical expression and `processObjectPattern`
never re-attaches the operator and right-hand side, so the emitted fix is
`const items = useSelector(state => state.data.items);`. -/
theorem claim_C1_fallback_dropped :
    destructuringHandler fallbackDecl =
      some ⟨reportMessage, ["const items = useSelector(state => state.data.items);"]⟩ ∧
    (["const items = useSelector(state => state.data.items);"] : List String) ≠
      ["const items = useSelector(state => state.data.items || \x7b\x7d);"] :=
  ⟨by decide, by decide⟩

/-- The object-literal selector
`(state) => (\x7b countryCode: state.profile.countryCode \x7d)`. -/
def objLitSelFn : SelectorFn :=
  ⟨.arrow, [⟨"state", ""⟩], true,
    .expr (.objectLit "\x7b countryCode: state.profile.countryCode \x7d")⟩

/-- `const \x7b countryCode \x7d = useSelector((state) => (\x7b countryCode:
state.profile.countryCode \x7d))`. -/
def objLitDecl : Declarator :=
  ⟨.objectPattern (.pleaf "countryCode" (.idVal "countryCode") .pnil),
    some (.callE ⟨some "useSelector", [.fn objLitSelFn]⟩), "const"⟩

/-- Claim C2 (refuted, code bug): the rule was claimed to build a field map
from object-literal selector bodies and rewrite `countryCode` to
`state.profile.countryCode`.  The code has no `ObjectExpression` branch at
all: `extractBasePath` yields `""` on an object-literal body, and the
rewrite fabricates `state.countryCode`. -/
theorem claim_C2_fieldmap_missing :
    extractBasePath objLitSelFn "state" = "" ∧
    destructuringHandler objLitDecl =
      some ⟨reportMessage, ["const countryCode = useSelector(state => state.countryCode);"]⟩ ∧
    (["const countryCode = useSelector(state => state.countryCode);"] : List String) ≠
      ["const countryCode = useSelector((state) => state.profile.countryCode);"] :=
  ⟨by decide, by decide, by decide⟩

/-- The selector `state => state.x`. -/
def stateXSelFn : SelectorFn :=
  ⟨.arrow, [⟨"state", ""⟩], false, .expr (.member (.ident "state") "x")⟩

/-- A destructuring declarator whose pattern holds a single non-`Property`
entry (e.g. `const \x7b ...rest \x7d = useSelector(state => state.x)`). -/
def restOnlyDecl : Declarator :=
  ⟨.objectPattern (.pskip .pnil),
    some (.callE ⟨some "useSelector", [.fn stateXSelFn]⟩), "const"⟩

/-- Claim C3 counterexample: a rest-element-only destructuring of a
recognized selector IS flagged, with an empty fix list — the handler
reports unconditionally once the selector is recognized. -/
theorem claim_C3_cex_flag_without_fix :
    destructuringHandler restOnlyDecl = some ⟨reportMessage, []⟩ := by decide

/-- Claim C3 (amended): whenever the destructuring handler reports, the fix
list has exactly one replacement declaration per plain `Property` leaf of
the pattern; a pattern with no such leaf (rest-element-only) is still
flagged, with an empty fix. -/
theorem claim_C3_fix_count (props : PatNode) (init : Option DeclInit) (kind : String) (r : Report)
    (h : destructuringHandler ⟨.objectPattern props, init, kind⟩ = some r) :
    r.message = reportMessage ∧ r.fixes.length = leafCount props := by
  cases init with
  | none => simp [destructuringHandler] at h
  | some i =>
    cases i with
    | memberE o p => simp [destructuringHandler] at h
    | otherInit => simp [destructuringHandler] at h
    | callE c =>
      unfold destructuringHandler at h
      dsimp only at h
      split at h
      case isTrue =>
        split at h
        case _ selectorFn tail =>
          split at h
          case _ paramName hp =>
            split at h
            case isTrue => cases h
            case isFalse =>
              cases h
              exact ⟨rfl, processObjectPattern_length _ props ""⟩
          case _ => cases h
        case _ => cases h
      case isFalse => cases h

/-- Witness for C3: the amended theorem applied to the rest-element-only
declarator, whose report carries zero fixes. -/
theorem claim_C3_fix_count_witness :
    (⟨reportMessage, []⟩ : Report).message = reportMessage ∧
    (⟨reportMessage, []⟩ : Report).fixes.length = leafCount (.pskip .pnil) :=
  claim_C3_fix_count (.pskip .pnil)
    (some (.callE ⟨some "useSelector", [.fn stateXSelFn]⟩)) "const"
    ⟨reportMessage, []⟩ (by decide)

/-- `function(state: RootState) \x7b return state.x; \x7d`: a function-expression
selector with a parameter type annotation (and hence no arrow parens). -/
def tsFuncSelFn : SelectorFn :=
  ⟨.funcExpr, [⟨"state", ": RootState"⟩], false,
    .block [.ret (some (.member (.ident "state") "x"))]⟩

/-- `const \x7b a \x7d = useSelector(function(state: RootState) \x7b return state.x; \x7d)`. -/
def tsFuncDecl : Declarator :=
  ⟨.objectPattern (.pleaf "a" (.idVal "a") .pnil),
    some (.callE ⟨some "useSelector", [.fn tsFuncSelFn]⟩), "const"⟩

/-- Claim C4 (refuted, code bug): a type annotation was claimed to force
parentheses around the rewritten parameter.  The code only parenthesizes
when the original source already matched the parenthesized-arrow regex: on
a `const`-bound function-expression selector with an annotated parameter,
the modern-dialect rewrite emits the unparenthesized (and syntactically
invalid) header `state: RootState =>`. -/
theorem claim_C4_parens_not_forced :
    getParamTypeAnn tsFuncSelFn = ": RootState" ∧
    hasParenthesesAroundParams tsFuncSelFn = false ∧
    destructuringHandler tsFuncDecl =
      some ⟨reportMessage, ["const a = useSelector(state: RootState => state.x.a);"]⟩ ∧
    (["const a = useSelector(state: RootState => state.x.a);"] : List String) ≠
      ["const a = useSelector((state: RootState) => state.x.a);"] :=
  ⟨by decide, by decide, by decide, by decide⟩

/-- `meta.schema` of the rule (line 345) is the empty array: the rule
declares no configuration options. -/
def ruleSchema : List String := []

/-- A plain arrow selector `state => state.items`. -/
def plainSelFn : SelectorFn :=
  ⟨.arrow, [⟨"state", ""⟩], false, .expr (.member (.ident "state") "items")⟩

/-- Claim C5 (refuted, code bug): the rule was claimed to accept `include`,
`exclude` and `ignorePatterns` options and match a callee iff some include
pattern matches and no exclude pattern does.  The code declares an empty
options schema and hard-codes the single regular expression
`/use.*Selector.*/` in `isSelectorFunction`: a name such as `selectData`
(which the documented `include: ["select.*"]` would admit) can never be
recognized, and nothing can ever be excluded. -/
theorem claim_C5_no_options :
    ruleSchema = [] ∧
    isSelectorFunction ⟨some "selectData", [.fn plainSelFn]⟩ = false ∧
    matchesUseSelector "selectData" = false ∧
    isSelectorFunction ⟨some "useAppSelector", [.fn plainSelFn]⟩ = true :=
  ⟨rfl, by decide, by decide, by decide⟩

/-- Claim C6: for every destructuring pattern (with nonempty keys) and
selector info, the fixes of `processObjectPattern` are exactly one
declaration per leaf, whose field path is the dot-joined key sequence from
the root to the leaf, prefixed (with a dot) by the selector base path when
that is nonempty. -/
theorem claim_C6_path_join (info : SelectorInfo) (pat : PatNode) (h : keysOk pat = true) :
    processObjectPattern info "" pat =
      (patLeaves [] pat).map
        (fun t => renderFix info t.2.1 (joinWithBase info.basePath (dotJoin t.1)) t.2.2) :=
  processObjectPattern_leaves info pat [] (by intro x hx; cases hx) h

/-- The selector info produced for `useAppSelector(state => state.profile)`
in a `const` declaration. -/
def profileInfo : SelectorInfo := ⟨"useAppSelector", "state", "", false, "profile", true⟩

/-- The pattern `\x7b user: \x7b name, email \x7d \x7d`. -/
def userPat : PatNode :=
  .pnest "user" (.pleaf "name" (.idVal "name") (.pleaf "email" (.idVal "email") .pnil)) .pnil

/-- Witness for C6: the spec example — pattern `\x7b user: \x7b name, email \x7d \x7d`
against base path `profile` yields the paths `profile.user.name` and
`profile.user.email`. -/
theorem claim_C6_path_join_witness :
    keysOk userPat = true ∧
    (processObjectPattern profileInfo "" userPat =
      (patLeaves [] userPat).map
        (fun t => renderFix profileInfo t.2.1 (joinWithBase profileInfo.basePath (dotJoin t.1)) t.2.2)) ∧
    processObjectPattern profileInfo "" userPat =
      ["const name = useAppSelector(state => state.profile.user.name);",
       "const email = useAppSelector(state => state.profile.user.email);"] :=
  ⟨by decide, claim_C6_path_join profileInfo userPat (by decide), by decide⟩

/-- `const \x7b totalCount = 0 \x7d = useSelector(state => state.x)`. -/
def defaultValDecl : Declarator :=
  ⟨.objectPattern (.pleaf "totalCount" (.assignVal (some "totalCount") "0") .pnil),
    some (.callE ⟨some "useSelector", [.fn stateXSelFn]⟩), "const"⟩

/-- Claim C7: for `const \x7b totalCount = 0 \x7d = useSelector(state => state.x)`
the generated fix is exactly
`const totalCount = useSelector(state => state.x.totalCount) || 0;`, which
ends with `) || 0;` and contains the narrowed selector body
`state => state.x.totalCount`. -/
theorem claim_C7_default_value :
    destructuringHandler defaultValDecl =
      some ⟨reportMessage, ["const totalCount = useSelector(state => state.x.totalCount) || 0;"]⟩ ∧
    strEndsWith "const totalCount = useSelector(state => state.x.totalCount) || 0;" ") || 0;"
      = true ∧
    listHasSub "state => state.x.totalCount".data
      "const totalCount = useSelector(state => state.x.totalCount) || 0;".data = true :=
  ⟨by decide, by decide, by decide⟩

/-- Claim C8: the rewrite is idempotent at the handler level — a declarator
binding a single identifier to a call expression (the shape of every
declaration the rule generates) is flagged by neither handler: the
destructuring handler requires an object-pattern `id` and the access-chain
handler requires a member-expression `init`, and the registry is untouched. -/
theorem claim_C8_idempotent (name : String) (c : CallE) (kind : String)
    (env : String → Option Declarator) (r : List String) :
    destructuringHandler ⟨.identifier name, some (.callE c), kind⟩ = none ∧
    accessStep env r ⟨.identifier name, some (.callE c), kind⟩ = (none, r) :=
  ⟨rfl, rfl⟩

/-- Claim C9: the dedup registry is monotonic — a step never removes a key;
once a key `obj.prop` is marked, a later member access with the same key
is silently skipped (no report, registry unchanged); and processing a file
resets the registry at the `Program` visit, so the result never depends on
the previous file's registry. -/
theorem claim_C9_dedup :
    (∀ (env : String → Option Declarator) (r : List String) (d : Declarator) (k : String),
        k ∈ r → k ∈ (accessStep env r d).2) ∧
    (∀ (env : String → Option Declarator) (r : List String) (idName objName propName kind : String),
        (objName ++ "." ++ propName) ∈ r →
        accessStep env r
            ⟨.identifier idName, some (.memberE (some objName) (some propName)), kind⟩ = (none, r)) ∧
    (∀ (env : String → Option Declarator) (r1 r2 : List String) (decls : List Declarator),
        processFile env r1 decls = processFile env r2 decls) := by
  refine ⟨?_, ?_, ?_⟩
  · intro env r d k hk
    rcases accessStep_state env r d with h | ⟨k2, h⟩
    · rw [h]; exact hk
    · rw [h]; exact List.mem_cons_of_mem k2 hk
  · intro env r idName objName propName kind hmem
    unfold accessStep
    dsimp only
    split <;> rfl
  · intro env r1 r2 decls
    rfl

/-- Witness for C9: with `obj.x` already marked, the access `a = obj.x` is
skipped and the registry is unchanged. -/
theorem claim_C9_dedup_witness :
    ("obj" ++ "." ++ "x") ∈ ["obj.x"] ∧
    accessStep (fun _ => none) ["obj.x"]
        ⟨.identifier "a", some (.memberE (some "obj") (some "x")), "const"⟩ = (none, ["obj.x"]) :=
  ⟨by decide, claim_C9_dedup.2.1 (fun _ => none) ["obj.x"] "a" "obj" "x" "const" (by decide)⟩

/-- Claim C10: base-path extraction never checks that the selector body is
rooted at the state parameter — it only strips a leading `paramName.` from
the chain text.  For any arrow selector whose body is a member chain whose
text does not start with `paramName.`, the whole chain text becomes the
base path, and the rewritten declaration selects
`paramName.<chainText>.<key>`, a path fabricated under the state
parameter. -/
theorem claim_C10_foreign_root (obj : JsExpr) (propN key paramName selName kind : String)
    (hpre : listIsPre (paramName ++ ".").data (exprText (JsExpr.member obj propN)).data = false)
    (hsel : matchesUseSelector selName = true)
    (hparam : paramName ≠ "") :
    extractBasePath ⟨.arrow, [⟨paramName, ""⟩], false, .expr (.member obj propN)⟩ paramName
      = exprText (.member obj propN) ∧
    destructuringHandler
        ⟨.objectPattern (.pleaf key (.idVal key) .pnil),
          some (.callE ⟨some selName,
            [.fn ⟨.arrow, [⟨paramName, ""⟩], false, .expr (.member obj propN)⟩]⟩),
          kind⟩
      = some ⟨reportMessage,
          ["const " ++ key ++ " = " ++ selName ++ "(" ++ paramName ++ " => " ++ paramName ++ "."
            ++ (exprText (.member obj propN) ++ "." ++ key) ++ ");"]⟩ := by
  have hbase : extractBasePath ⟨.arrow, [⟨paramName, ""⟩], false, .expr (.member obj propN)⟩ paramName
      = exprText (.member obj propN) := by
    show stripParamHead paramName (exprText (.member obj propN)) = exprText (.member obj propN)
    unfold stripParamHead
    rw [hpre]
    simp
  refine ⟨hbase, ?_⟩
  unfold destructuringHandler
  dsimp only
  have hself : isSelectorFunction
      ⟨some selName, [.fn ⟨.arrow, [⟨paramName, ""⟩], false, .expr (.member obj propN)⟩]⟩ = true := by
    simp [isSelectorFunction, hsel]
  rw [hself]
  dsimp only [getParamName]
  rw [if_neg hparam]
  dsimp only [processObjectPattern, aliasDefault]
  rw [hbase]
  rw [if_neg (memberText_ne_empty obj propN)]
  simp [renderFix, detectCodeStyle, getParamTypeAnn, calleeName]

/-- Witness for C10: `state => window.config` with key `field` produces a
base path of `window.config` and the fabricated selection
`state.window.config.field`. -/
theorem claim_C10_foreign_root_witness :
    (listIsPre ("state" ++ ".").data (exprText (JsExpr.member (.ident "window") "config")).data
        = false ∧
      matchesUseSelector "useSelector" = true ∧ ("state" : String) ≠ "") ∧
    (extractBasePath ⟨.arrow, [⟨"state", ""⟩], false,
          .expr (.member (.ident "window") "config")⟩ "state"
        = exprText (.member (.ident "window") "config") ∧
      destructuringHandler
          ⟨.objectPattern (.pleaf "field" (.idVal "field") .pnil),
            some (.callE ⟨some "useSelector",
              [.fn ⟨.arrow, [⟨"state", ""⟩], false, .expr (.member (.ident "window") "config")⟩]⟩),
            "const"⟩
        = some ⟨reportMessage,
            ["const " ++ "field" ++ " = " ++ "useSelector" ++ "(" ++ "state" ++ " => " ++ "state"
              ++ "." ++ (exprText (.member (.ident "window") "config") ++ "." ++ "field") ++ ");"]⟩) :=
  ⟨⟨by decide, by decide, by decide⟩,
   claim_C10_foreign_root (.ident "window") "config" "field" "state" "useSelector" "const"
     (by decide) (by decide) (by decide)⟩
